import Mathlib

/-!
Shallow embedding of parts of the bb-storage blob store, verified against
the natural-language specification. The embedding covers the circular
storage backend (`circularBlobAccess`), the ByteStream write server
(`byteStreamWriteServerChunkReader`, `parseResourceNameWrite`), the HTTP
remote backend (`remoteBlobAccess`) and the file helpers of
`blobAccessContentAddressableStorage` (`GetFile`, `PutFile`).

Calls through the injected interfaces (`OffsetStore`, `DataStore`,
`StateStore`, the HTTP client, the gRPC stream) are embedded as explicit
oracle parameters: each such parameter carries the result the interface
call would return, and the functions record which calls they make, so
theorems can speak about both the returned value and the interaction with
the environment.
-/

namespace BBStorage

/-- gRPC status codes used by the embedded code. -/
inductive StatusCode where
  | ok
  | invalidArgument
  | notFound
  | unknown
  | unimplemented
deriving DecidableEq, Repr

/-- A Go error value: either a gRPC status error (`status.Errorf`) or a
plain error (`errors.New` / `io` errors). -/
inductive GoError where
  | status (code : StatusCode) (msg : String)
  | plain (msg : String)
deriving DecidableEq, Repr

/-- A digest triple. Modelled from the spec: `util.Digest` is not under
`src/`; the spec's data model describes it as the triple
`(instance, hash, size)` with `hash` the hex-encoded digest string and
`size` the exact byte length. -/
structure Digest where
  instanceName : String
  hash : String
  sizeBytes : Int
deriving DecidableEq, Repr

/-- Modelled from the spec: `Digest.GetHashString` is not under `src/`;
per the spec the digest's hash component is the hex hash string used to
address blobs. -/
def Digest.GetHashString (d : Digest) : String := d.hash

/-- Modelled from the spec: `Digest.GetSizeBytes` is not under `src/`;
per the spec the digest's size component is the exact byte length. -/
def Digest.GetSizeBytes (d : Digest) : Int := d.sizeBytes

/-! ## Circular backend (`circularBlobAccess`) -/

namespace Circular

/-- The read/write cursor pair of the circular data file. -/
structure Cursors where
  read : Nat
  write : Nat
deriving DecidableEq, Repr

/-- Modelled from the spec: `Cursors.Contains` is not under `src/`; the
spec defines liveness of a region as
"A region `[off, off+len)` is live iff `read <= off && off+len <= write`". -/
def Cursors.Contains (c : Cursors) (offset : Nat) (sizeBytes : Int) : Bool :=
  decide ((c.read : Int) ≤ (offset : Int) ∧ (offset : Int) + sizeBytes ≤ (c.write : Int))

/-- Outcome of one call to `circularBlobAccess.Put`, together with the
interactions it performed: whether the buffer was discarded and, when the
offset store was updated, the `(offset, sizeBytes)` pair passed to
`offsetStore.Put`. -/
structure PutTrace where
  result : Option GoError
  offsetPutCall : Option (Nat × Int)
  discarded : Bool
deriving DecidableEq, Repr

/-- The stale-data error produced by `circularBlobAccess.Put` when the
allocated region is no longer live (`errors.New`). -/
def staleDataError : GoError := .plain "Data became stale before write completed"

/-- Shallow embedding of `circularBlobAccess.Put`. The oracle parameters
carry the results of the injected interface calls, in program order:
`getSizeBytes` is `b.GetSizeBytes()`, `allocate` is
`stateStore.Allocate(sizeBytes)`, `dataStorePut` is
`dataStore.Put(r, offset)` (`none` meaning success), `cursors` is the
`stateStore.GetCursors()` snapshot taken after the data write, and
`offsetStorePut` is the result `offsetStore.Put` would return if invoked. -/
def circularPut (getSizeBytes : Except GoError Int)
    (allocate : Int → Except GoError Nat)
    (dataStorePut : Nat → Option GoError)
    (cursors : Cursors)
    (offsetStorePut : Nat → Int → Option GoError) : PutTrace :=
  match getSizeBytes with
  | .error e => { result := some e, offsetPutCall := none, discarded := true }
  | .ok sizeBytes =>
    match allocate sizeBytes with
    | .error e => { result := some e, offsetPutCall := none, discarded := false }
    | .ok offset =>
      match dataStorePut offset with
      | some e => { result := some e, offsetPutCall := none, discarded := false }
      | none =>
        if cursors.Contains offset sizeBytes then
          { result := offsetStorePut offset sizeBytes,
            offsetPutCall := some (offset, sizeBytes),
            discarded := false }
        else
          { result := some staleDataError, offsetPutCall := none, discarded := false }

/-- The buffer returned by `circularBlobAccess.Get`: either an error
buffer (`buffer.NewBufferFromError`) or a reader-backed buffer over the
data store region `[offset, offset+length)` whose repair callback invokes
`stateStore.Invalidate` with the recorded arguments. -/
inductive GetBuffer where
  | fromError (e : GoError)
  | fromReader (offset : Nat) (length : Int) (invalidateArgs : Nat × Int)
deriving DecidableEq, Repr

/-- Shallow embedding of `circularBlobAccess.Get`. `cursors` is the
`stateStore.GetCursors()` snapshot and `offsetStoreGet` the result of
`offsetStore.Get(digest, cursors)`: `(offset, length, ok)` on success. -/
def circularGet (cursors : Cursors)
    (offsetStoreGet : Digest → Cursors → Except GoError (Nat × Int × Bool))
    (digest : Digest) : GetBuffer :=
  match offsetStoreGet digest cursors with
  | .error e => .fromError e
  | .ok (offset, length, ok) =>
    if ok then
      .fromReader offset length (offset, length)
    else
      .fromError (.status .notFound "Blob not found")

/-- Shallow embedding of `circularBlobAccess.FindMissing`. The whole call
runs under the lock against the single snapshot `cursors`; `offsetStoreGet`
is the injected `offsetStore.Get`. -/
def circularFindMissing (cursors : Cursors)
    (offsetStoreGet : Digest → Cursors → Except GoError (Nat × Int × Bool))
    (digests : List Digest) : Except GoError (List Digest) :=
  match digests with
  | [] => .ok []
  | digest :: rest =>
    match offsetStoreGet digest cursors with
    | .error e => .error e
    | .ok (_, _, ok) =>
      match circularFindMissing cursors offsetStoreGet rest with
      | .error e => .error e
      | .ok missing => .ok (if ok then missing else digest :: missing)

/-- Whether the offset store reports a digest absent with no error: the
`!ok`-branch condition of the `FindMissing` loop. -/
def lookupAbsent (offsetStoreGet : Digest → Cursors → Except GoError (Nat × Int × Bool))
    (cursors : Cursors) (digest : Digest) : Bool :=
  match offsetStoreGet digest cursors with
  | .error _ => false
  | .ok (_, _, ok) => !ok

/-- The error of the first digest (in list order) whose offset-store
lookup fails, if any. -/
def firstLookupError (offsetStoreGet : Digest → Cursors → Except GoError (Nat × Int × Bool))
    (cursors : Cursors) : List Digest → Option GoError
  | [] => none
  | digest :: rest =>
    match offsetStoreGet digest cursors with
    | .error e => some e
    | .ok _ => firstLookupError offsetStoreGet cursors rest

end Circular

/-! ## ByteStream write server (`byteStreamServer`) -/

namespace ByteStream

/-- One `bytestream.WriteRequest`; the resource name only matters for the
first request of a stream, bytes are abstracted as naturals. -/
structure WriteRequest where
  writeOffset : Int
  data : List Nat
  finishWrite : Bool
deriving DecidableEq, Repr

/-- The mutable fields of `byteStreamWriteServerChunkReader`. -/
structure ChunkReaderState where
  writeOffset : Int
  data : List Nat
  finishedWrite : Bool
deriving DecidableEq, Repr

/-- The reader state as `byteStreamServer.Write` constructs it
(`&byteStreamWriteServerChunkReader{stream: stream}`): zero values. -/
def initialChunkReaderState : ChunkReaderState :=
  { writeOffset := 0, data := [], finishedWrite := false }

/-- Shallow embedding of `byteStreamWriteServerChunkReader.setRequest`. -/
def setRequest (r : ChunkReaderState) (request : WriteRequest) :
    Except GoError ChunkReaderState :=
  if r.finishedWrite then
    .error (.status .invalidArgument "Client closed stream twice")
  else if request.writeOffset ≠ r.writeOffset then
    .error (.status .invalidArgument
      ("Attempted to write at offset " ++ toString request.writeOffset ++
        ", while " ++ toString r.writeOffset ++ " was expected"))
  else
    .ok { writeOffset := r.writeOffset + request.data.length,
          data := request.data,
          finishedWrite := request.finishWrite }

/-- Outcome of one `byteStreamWriteServerChunkReader.Read` call: a data
chunk with the successor state and remaining stream, `io.EOF` propagated
(stream exhausted after `finish_write`), or an error. -/
inductive ReadOutcome where
  | chunk (data : List Nat) (state : ChunkReaderState) (rest : List WriteRequest)
  | eofReached
  | failure (e : GoError)
deriving DecidableEq, Repr

/-- Shallow embedding of `byteStreamWriteServerChunkReader.Read`. The
gRPC stream is embedded as the list of write requests still to arrive;
`stream.Recv()` on the empty list returns `io.EOF`. -/
def chunkReaderRead (r : ChunkReaderState) (stream : List WriteRequest) :
    ReadOutcome :=
  if r.data.isEmpty then
    match stream with
    | [] =>
      if !r.finishedWrite then
        .failure (.status .invalidArgument "Client closed stream without finishing write")
      else
        .eofReached
    | request :: rest =>
      match setRequest r request with
      | .error e => .failure e
      | .ok r2 => .chunk r2.data { r2 with data := [] } rest
  else
    .chunk r.data { r with data := [] } stream

/-- Folds `setRequest` over a list of incoming requests, as a run of the
write server does over the requests it receives in order. -/
def processRequests (r : ChunkReaderState) (requests : List WriteRequest) :
    Except GoError ChunkReaderState :=
  match requests with
  | [] => .ok r
  | request :: rest =>
    match setRequest r request with
    | .error e => .error e
    | .ok r2 => processRequests r2 rest

/-- Total number of data bytes carried by a list of write requests. -/
def sumDataLengths (requests : List WriteRequest) : Int :=
  match requests with
  | [] => 0
  | request :: rest => (request.data.length : Int) + sumDataLengths rest

/-- Go `strings.FieldsFunc(s, r == helper)` for the separator `/`: the
non-empty substrings between slashes. -/
def fieldsFunc (s : String) : List String :=
  (s.splitOn "/").filter (fun f => f ≠ "")

/-- Digits-only parse of a character list into a natural number. -/
def parseDigits (cs : List Char) : Option Nat :=
  if cs.isEmpty then none
  else if cs.all Char.isDigit then
    some (cs.foldl (fun acc c => acc * 10 + (c.toNat - 48)) 0)
  else none

/-- Go `strconv.ParseInt(s, 10, 64)`: optional sign, at least one decimal
digit, value within the signed 64-bit range. -/
def parseInt64 (s : String) : Option Int :=
  match s.data with
  | '-' :: rest =>
    match parseDigits rest with
    | none => none
    | some n => if (n : Int) ≤ 9223372036854775808 then some (-(n : Int)) else none
  | '+' :: rest =>
    match parseDigits rest with
    | none => none
    | some n => if (n : Int) ≤ 9223372036854775807 then some (n : Int) else none
  | cs =>
    match parseDigits cs with
    | none => none
    | some n => if (n : Int) ≤ 9223372036854775807 then some (n : Int) else none

/-- Modelled from the spec: `util.NewDigest` is not under `src/`; the
spec's data model makes a digest the plain triple `(instance, hash, size)`. -/
def NewDigest (instanceName : String) (hash : String) (sizeBytes : Int) : Digest :=
  { instanceName := instanceName, hash := hash, sizeBytes := sizeBytes }

/-- Shallow embedding of `parseResourceNameWrite`. -/
def parseResourceNameWrite (resourceName : String) : Except GoError Digest :=
  let fields := fieldsFunc resourceName
  let l := fields.length
  if (l ≠ 5 ∧ l ≠ 6) ∨ fields.getD (l - 5) "" ≠ "uploads" ∨ fields.getD (l - 3) "" ≠ "blobs" then
    .error (.status .invalidArgument "Invalid resource naming scheme")
  else
    match parseInt64 (fields.getD (l - 1) "") with
    | none => .error (.status .invalidArgument "Invalid resource naming scheme")
    | some size =>
      .ok (NewDigest (if l = 6 then fields.getD 0 "" else "") (fields.getD (l - 2) "") size)

/-- The acceptance predicate of claim C6, written from the claim's words:
the string splits on `/` into 5 or 6 non-empty fields, with `uploads` as
the 5th-from-last field, `blobs` as the 3rd-from-last field and a decimal
integer as the last field; the digest's instance is the first field on a
6-field name and empty otherwise, its hash the 2nd-from-last field and
its size the last field. -/
def writeResourceNameSpec (s : String) : Option Digest :=
  let fields := fieldsFunc s
  let l := fields.length
  if (l = 5 ∨ l = 6) ∧ fields.getD (l - 5) "" = "uploads" ∧ fields.getD (l - 3) "" = "blobs" then
    match parseInt64 (fields.getD (l - 1) "") with
    | some size =>
      some { instanceName := if l = 6 then fields.getD 0 "" else "",
             hash := fields.getD (l - 2) "",
             sizeBytes := size }
    | none => none
  else none

end ByteStream

/-! ## HTTP remote backend (`remoteBlobAccess`) -/

namespace Remote

/-- Result of an HTTP round trip: a transport error, or a response with a
status code and a body (bytes abstracted as naturals). -/
inductive HTTPResult where
  | transportError (e : GoError)
  | response (statusCode : Nat) (body : List Nat)
deriving DecidableEq, Repr

/-- The `remoteBlobAccess` configuration; `pathBase` embeds the struct's
URL path component sitting between the address and the hash. -/
structure RemoteBlobAccess where
  address : String
  pathBase : String
deriving DecidableEq, Repr

/-- The URL every operation addresses, built by
`fmt.Sprintf("%s/%s/%s", ...)` from the address, the path component and
the digest's hash string. -/
def blobURL (ba : RemoteBlobAccess) (digest : Digest) : String :=
  ba.address ++ "/" ++ ba.pathBase ++ "/" ++ digest.GetHashString

/-- Go `http.StatusText` restricted to the codes appearing in this
development (Go returns the empty string for codes it does not know). -/
def statusText (code : Nat) : String :=
  if code = 200 then "OK"
  else if code = 404 then "Not Found"
  else if code = 403 then "Forbidden"
  else if code = 500 then "Internal Server Error"
  else ""

/-- Shallow embedding of `convertHTTPUnexpectedStatus`. -/
def convertHTTPUnexpectedStatus (statusCode : Nat) : GoError :=
  .status .unknown
    ("Unexpected status code from remote cache: " ++ toString statusCode ++
      " - " ++ statusText statusCode)

/-- The buffer `remoteBlobAccess.Get` returns: an error buffer or a
reader-backed buffer over the response body. -/
inductive RemoteGetBuffer where
  | fromError (e : GoError)
  | fromReader (body : List Nat)
deriving DecidableEq, Repr

/-- Shallow embedding of `remoteBlobAccess.Get`; `doGet` embeds
`ctxhttp.Get` as a function from the URL to the HTTP result. -/
def remoteGet (ba : RemoteBlobAccess) (doGet : String → HTTPResult)
    (digest : Digest) : RemoteGetBuffer :=
  let url := blobURL ba digest
  match doGet url with
  | .transportError e => .fromError e
  | .response code body =>
    if code = 404 then .fromError (.status .notFound url)
    else if code = 200 then .fromReader body
    else .fromError (convertHTTPUnexpectedStatus code)

/-- Shallow embedding of `remoteBlobAccess.FindMissing`; `doHead` embeds
`ctxhttp.Head`. -/
def remoteFindMissing (ba : RemoteBlobAccess) (doHead : String → HTTPResult) :
    List Digest → Except GoError (List Digest)
  | [] => .ok []
  | digest :: rest =>
    match doHead (blobURL ba digest) with
    | .transportError e => .error e
    | .response code _ =>
      if code = 404 then
        match remoteFindMissing ba doHead rest with
        | .error e => .error e
        | .ok missing => .ok (digest :: missing)
      else if code = 200 then
        remoteFindMissing ba doHead rest
      else
        .error (convertHTTPUnexpectedStatus code)

/-- The outgoing request `remoteBlobAccess.Put` builds with
`http.NewRequest(http.MethodPut, url, r)` and `req.ContentLength = sizeBytes`. -/
structure PutRequest where
  method : String
  url : String
  contentLength : Int
deriving DecidableEq, Repr

/-- Outcome of one `remoteBlobAccess.Put` call: the returned error (if
any), the request handed to `ctxhttp.Do` (if one was built), and whether
the buffer was discarded. -/
structure RemotePutTrace where
  result : Option GoError
  requestSent : Option PutRequest
  discarded : Bool
deriving DecidableEq, Repr

/-- Shallow embedding of `remoteBlobAccess.Put`. `getSizeBytes` is
`b.GetSizeBytes()`, `newRequest` the possible failure of
`http.NewRequest` at the URL, and `doRequest` embeds `ctxhttp.Do`. The
response's status code is never inspected: the `.response` branch
discards it. -/
def remotePut (ba : RemoteBlobAccess)
    (getSizeBytes : Except GoError Int)
    (newRequest : String → Option GoError)
    (doRequest : PutRequest → HTTPResult)
    (digest : Digest) : RemotePutTrace :=
  match getSizeBytes with
  | .error e => { result := some e, requestSent := none, discarded := true }
  | .ok sizeBytes =>
    let url := blobURL ba digest
    match newRequest url with
    | some e => { result := some e, requestSent := none, discarded := false }
    | none =>
      let req : PutRequest := { method := "PUT", url := url, contentLength := sizeBytes }
      match doRequest req with
      | .transportError e => { result := some e, requestSent := some req, discarded := false }
      | .response _ _ => { result := none, requestSent := some req, discarded := false }

/-- Whether a HEAD result is a 404 response (decides membership in the
missing set). -/
def isNotFoundResponse (r : HTTPResult) : Bool :=
  match r with
  | .transportError _ => false
  | .response code _ => code = 404

/-- Whether a HEAD result is a 200 or 404 response (the two outcomes of
`FindMissing`'s switch that do not abort the call). -/
def isOkOrNotFoundResponse (r : HTTPResult) : Bool :=
  match r with
  | .transportError _ => false
  | .response code _ => code = 404 || code = 200

end Remote

/-! ## `blobAccessContentAddressableStorage` file helpers -/

namespace CAS

/-- Modelled from the spec: `filesystem.Directory` is not under `src/`;
a directory is embedded as the set of file names it holds. -/
structure DirState where
  files : List String
deriving DecidableEq, Repr

/-- Modelled from the spec: `Directory.OpenAppend` with
`filesystem.CreateExcl(mode)` is not under `src/`; exclusive creation
fails when the name already exists and otherwise creates the file. -/
def openAppendCreateExcl (dir : DirState) (name : String) :
    Except GoError DirState :=
  if name ∈ dir.files then .error (.plain "file exists")
  else .ok { files := name :: dir.files }

/-- Modelled from the spec: `Directory.Remove` is not under `src/`; it
deletes the named file from the directory. -/
def removeFile (dir : DirState) (name : String) : DirState :=
  { files := dir.files.filter (fun f => f ≠ name) }

/-- Outcome of `blobAccessContentAddressableStorage.GetFile`: the
returned error (if any) and the directory contents afterwards. -/
structure GetFileTrace where
  result : Option GoError
  dir : DirState
deriving DecidableEq, Repr

/-- Shallow embedding of `blobAccessContentAddressableStorage.GetFile`.
`intoWriter` carries the result of `blobAccess.Get(ctx, digest).IntoWriter(w)`
(`none` meaning success). -/
def getFile (dir : DirState) (name : String) (intoWriter : Option GoError) :
    GetFileTrace :=
  match openAppendCreateExcl dir name with
  | .error e => { result := some e, dir := dir }
  | .ok dir2 =>
    match intoWriter with
    | some e => { result := some e, dir := removeFile dir2 name }
    | none => { result := none, dir := dir2 }

/-- The Go constant `math.MaxInt64`. -/
def maxInt64 : Nat := 9223372036854775807

/-- The bytes an `io.SectionReader` over `file` at offset `off` bounded
to `n` bytes yields in total. -/
def sectionReaderBytes (file : List Nat) (off n : Nat) : List Nat :=
  (file.drop off).take n

/-- Outcome of `blobAccessContentAddressableStorage.PutFile`: the
returned digest or error, and the bytes streamed to `blobAccess.Put`
(when the upload was reached). -/
structure PutFileTrace where
  result : Except GoError Digest
  uploaded : Option (List Nat)
deriving Repr

/-- Shallow embedding of `blobAccessContentAddressableStorage.PutFile`.
The two reads of the (possibly growing) file are embedded as two
snapshots: `fileAtDigestPass` is what the digest-computing
`io.Copy(digestGenerator, io.NewSectionReader(file, 0, math.MaxInt64))`
sees, `fileAtUploadPass` what the upload's
`newSectionReadCloser(file, 0, sizeBytes)` sees. `H` is the abstract
hash function of the digest generator (modelled from the spec: the
generator's `Sum` is not under `src/`; per the spec a digest's size is
the exact byte count hashed). `copyResult` is a possible read error of
the first pass and `blobPut` the result of `blobAccess.Put`. -/
def putFile (H : List Nat → String) (instanceName : String)
    (openRead : Option GoError)
    (copyResult : Option GoError)
    (fileAtDigestPass fileAtUploadPass : List Nat)
    (blobPut : Digest → List Nat → Option GoError) : PutFileTrace :=
  match openRead with
  | some e => { result := .error e, uploaded := none }
  | none =>
    match copyResult with
    | some e => { result := .error e, uploaded := none }
    | none =>
      let hashed := sectionReaderBytes fileAtDigestPass 0 maxInt64
      let sizeBytes := hashed.length
      let digest : Digest :=
        { instanceName := instanceName, hash := H hashed, sizeBytes := (sizeBytes : Int) }
      let uploadBytes := sectionReaderBytes fileAtUploadPass 0 sizeBytes
      match blobPut digest uploadBytes with
      | some e => { result := .error e, uploaded := some uploadBytes }
      | none => { result := .ok digest, uploaded := some uploadBytes }

end CAS

/-! ## Theorems -/

/-- C1: after allocating space and streaming the bytes into the data
store, `circularBlobAccess.Put` inserts the digest-to-offset mapping into
the offset store iff the allocated region `[offset, offset+size)` is
still contained in the current cursors' live window; if the region is no
longer live, it returns the stale-data error "Data became stale before
write completed" and the offset store is left untouched. -/
theorem circularPut_inserts_iff_live
    (sizeBytes : Int) (allocate : Int → Except GoError Nat)
    (dataStorePut : Nat → Option GoError) (cursors : Circular.Cursors)
    (offsetStorePut : Nat → Int → Option GoError) (offset : Nat)
    (halloc : allocate sizeBytes = .ok offset)
    (hdata : dataStorePut offset = none) :
    ((Circular.circularPut (.ok sizeBytes) allocate dataStorePut cursors offsetStorePut).offsetPutCall
        = some (offset, sizeBytes) ↔ cursors.Contains offset sizeBytes = true) ∧
    (cursors.Contains offset sizeBytes = false →
      (Circular.circularPut (.ok sizeBytes) allocate dataStorePut cursors offsetStorePut).result
          = some Circular.staleDataError ∧
      (Circular.circularPut (.ok sizeBytes) allocate dataStorePut cursors offsetStorePut).offsetPutCall
          = none) ∧
    (cursors.Contains offset sizeBytes = true →
      (Circular.circularPut (.ok sizeBytes) allocate dataStorePut cursors offsetStorePut).result
          = offsetStorePut offset sizeBytes) := by
  simp only [Circular.circularPut, halloc, hdata]
  by_cases h : cursors.Contains offset sizeBytes = true <;> simp [h]

/-- Concrete run of `circularPut_inserts_iff_live`: a 5-byte blob
allocated at offset 6 while the live window is `[0, 4)` hits the stale
path. -/
theorem circularPut_inserts_iff_live_witness :
    (Circular.circularPut (.ok 5) (fun _ => .ok 6) (fun _ => none) ⟨0, 4⟩
        (fun _ _ => none)).result = some Circular.staleDataError ∧
    (Circular.circularPut (.ok 5) (fun _ => .ok 6) (fun _ => none) ⟨0, 4⟩
        (fun _ _ => none)).offsetPutCall = none :=
  (circularPut_inserts_iff_live 5 (fun _ => .ok 6) (fun _ => none) ⟨0, 4⟩
      (fun _ _ => none) 6 rfl rfl).2.1 (by decide)

/-- Success characterization of `circularFindMissing`: the call returns
`Except.ok missing` exactly when no lookup errors, and then `missing` is
the sublist of digests whose lookup reports them absent. -/
theorem circularFindMissing_ok_iff
    (cursors : Circular.Cursors)
    (osGet : Digest → Circular.Cursors → Except GoError (Nat × Int × Bool))
    (digests : List Digest) :
    ∀ missing : List Digest,
      Circular.circularFindMissing cursors osGet digests = Except.ok missing ↔
        (Circular.firstLookupError osGet cursors digests = none ∧
          missing = digests.filter (fun d => Circular.lookupAbsent osGet cursors d)) := by
  induction digests with
  | nil =>
    intro missing
    simp [Circular.circularFindMissing, Circular.firstLookupError, eq_comm]
  | cons d rest ih =>
    intro missing
    cases hd : osGet d cursors with
    | error e =>
      simp [Circular.circularFindMissing, Circular.firstLookupError, hd]
    | ok t =>
      obtain ⟨off, len, ok⟩ := t
      have habs : Circular.lookupAbsent osGet cursors d = !ok := by
        simp [Circular.lookupAbsent, hd]
      cases hr : Circular.circularFindMissing cursors osGet rest with
      | error e =>
        simp only [Circular.circularFindMissing, Circular.firstLookupError, hd, hr,
          List.filter_cons, habs]
        constructor
        · intro h
          simp at h
        · rintro ⟨hfe, -⟩
          have hok := (ih (rest.filter
            (fun x => Circular.lookupAbsent osGet cursors x))).mpr ⟨hfe, rfl⟩
          rw [hok] at hr
          simp at hr
      | ok m =>
        obtain ⟨hfe, hm⟩ := (ih m).mp hr
        subst hm
        simp only [Circular.circularFindMissing, Circular.firstLookupError, hd, hr,
          List.filter_cons, habs, hfe]
        cases ok <;> simp [eq_comm]

/-- Failure characterization of `circularFindMissing`: the call returns
`Except.error e` exactly when `e` is the first lookup error. -/
theorem circularFindMissing_error_iff
    (cursors : Circular.Cursors)
    (osGet : Digest → Circular.Cursors → Except GoError (Nat × Int × Bool))
    (digests : List Digest) :
    ∀ e : GoError,
      Circular.circularFindMissing cursors osGet digests = Except.error e ↔
        Circular.firstLookupError osGet cursors digests = some e := by
  induction digests with
  | nil =>
    intro e
    simp [Circular.circularFindMissing, Circular.firstLookupError]
  | cons d rest ih =>
    intro e
    cases hd : osGet d cursors with
    | error e0 =>
      simp [Circular.circularFindMissing, Circular.firstLookupError, hd]
    | ok t =>
      obtain ⟨off, len, ok⟩ := t
      cases hr : Circular.circularFindMissing cursors osGet rest with
      | error e1 =>
        have h1 : Circular.firstLookupError osGet cursors rest = some e1 := (ih e1).mp hr
        simp [Circular.circularFindMissing, Circular.firstLookupError, hd, hr, h1]
      | ok m =>
        obtain ⟨hfe, -⟩ := (circularFindMissing_ok_iff cursors osGet rest m).mp hr
        simp [Circular.circularFindMissing, Circular.firstLookupError, hd, hr, hfe]

/-- When no lookup in the list errors, every digest's lookup succeeded. -/
theorem firstLookupError_none_lookup_ok
    (cursors : Circular.Cursors)
    (osGet : Digest → Circular.Cursors → Except GoError (Nat × Int × Bool)) :
    ∀ digests : List Digest,
      Circular.firstLookupError osGet cursors digests = none →
      ∀ d ∈ digests, ∃ t, osGet d cursors = Except.ok t := by
  intro digests
  induction digests with
  | nil =>
    intro _ d hd
    cases hd
  | cons d0 rest ih =>
    intro h d hd
    cases hd' : osGet d0 cursors with
    | error e =>
      simp [Circular.firstLookupError, hd'] at h
    | ok t =>
      simp only [Circular.firstLookupError, hd'] at h
      rcases List.mem_cons.mp hd with h1 | h1
      · exact ⟨t, h1 ▸ hd'⟩
      · exact ih h d h1

/-- C2: `circularBlobAccess.FindMissing(ds)`, evaluated against one
cursors snapshot, returns exactly the sublist of `ds` whose offset-store
lookup reports the digest absent — exactly those digests for which `Get`
would return `NotFound` at that point; every digest found in the offset
store is excluded, and if any lookup errors the whole call fails with the
first such error. -/
theorem circularFindMissing_exactly_absent
    (cursors : Circular.Cursors)
    (osGet : Digest → Circular.Cursors → Except GoError (Nat × Int × Bool))
    (digests : List Digest) :
    (∀ missing, Circular.circularFindMissing cursors osGet digests = Except.ok missing →
      missing = digests.filter (fun d => Circular.lookupAbsent osGet cursors d) ∧
      ∀ d ∈ digests,
        (d ∈ missing ↔ Circular.circularGet cursors osGet d =
          .fromError (.status .notFound "Blob not found"))) ∧
    (∀ e, Circular.circularFindMissing cursors osGet digests = Except.error e ↔
      Circular.firstLookupError osGet cursors digests = some e) := by
  constructor
  · intro missing h
    obtain ⟨hfe, hm⟩ := (circularFindMissing_ok_iff cursors osGet digests missing).mp h
    subst hm
    refine ⟨rfl, ?_⟩
    intro d hd
    obtain ⟨⟨off, len, ok⟩, hOk⟩ :=
      firstLookupError_none_lookup_ok cursors osGet digests hfe d hd
    have habs : Circular.lookupAbsent osGet cursors d = !ok := by
      simp [Circular.lookupAbsent, hOk]
    rw [List.mem_filter]
    cases ok with
    | true => simp [habs, Circular.circularGet, hOk]
    | false => simp [habs, Circular.circularGet, hOk, hd]
  · exact circularFindMissing_error_iff cursors osGet digests

/-- Concrete run of `circularFindMissing_exactly_absent`: of two digests,
the one the offset store knows is excluded and the unknown one is
reported missing, matching the digest `Get` answers `NotFound` for. -/
theorem circularFindMissing_exactly_absent_witness :
    [({ instanceName := "", hash := "bb", sizeBytes := 2 } : Digest)] =
      List.filter
        (fun d => Circular.lookupAbsent
          (fun d2 _ => if d2.hash = "aa" then Except.ok (0, 1, true) else Except.ok (0, 0, false))
          ⟨0, 4⟩ d)
        [⟨"", "aa", 1⟩, ⟨"", "bb", 2⟩] ∧
    ∀ d ∈ [(⟨"", "aa", 1⟩ : Digest), ⟨"", "bb", 2⟩],
      (d ∈ [(⟨"", "bb", 2⟩ : Digest)] ↔
        Circular.circularGet ⟨0, 4⟩
          (fun d2 _ => if d2.hash = "aa" then Except.ok (0, 1, true) else Except.ok (0, 0, false)) d =
          .fromError (.status .notFound "Blob not found")) :=
  (circularFindMissing_exactly_absent ⟨0, 4⟩
      (fun d2 _ => if d2.hash = "aa" then Except.ok (0, 1, true) else Except.ok (0, 0, false))
      [⟨"", "aa", 1⟩, ⟨"", "bb", 2⟩]).1 [⟨"", "bb", 2⟩] rfl

/-- The expected write offset after successfully processing a list of
requests is the running sum of their data lengths on top of the starting
offset. -/
theorem processRequests_writeOffset
    (requests : List ByteStream.WriteRequest) :
    ∀ r st : ByteStream.ChunkReaderState,
      ByteStream.processRequests r requests = Except.ok st →
      st.writeOffset = r.writeOffset + ByteStream.sumDataLengths requests := by
  induction requests with
  | nil =>
    intro r st h
    simp only [ByteStream.processRequests] at h
    injection h with h
    subst h
    simp [ByteStream.sumDataLengths]
  | cons request rest ih =>
    intro r st h
    simp only [ByteStream.processRequests] at h
    cases hs : ByteStream.setRequest r request with
    | error e =>
      rw [hs] at h
      simp at h
    | ok r2 =>
      rw [hs] at h
      have hrest := ih r2 st h
      have hw : r2.writeOffset = r.writeOffset + request.data.length := by
        unfold ByteStream.setRequest at hs
        split at hs
        · simp at hs
        · split at hs
          · simp at hs
          · injection hs with h2
            rw [← h2]
      rw [hrest, hw, ByteStream.sumDataLengths]
      ring

/-- C3: for the ByteStream write stream, a request whose write offset
differs from the running sum of previously received data lengths
(starting at 0) yields `InvalidArgument`; reaching end of stream without
a request carrying `finish_write` yields `InvalidArgument`; and a request
received after `finish_write` was seen yields `InvalidArgument`. -/
theorem byteStreamWrite_misuse_invalidArgument
    (requests : List ByteStream.WriteRequest) (st : ByteStream.ChunkReaderState)
    (request : ByteStream.WriteRequest)
    (h : ByteStream.processRequests ByteStream.initialChunkReaderState requests = Except.ok st) :
    (request.writeOffset ≠ ByteStream.sumDataLengths requests →
      ∃ msg, ByteStream.setRequest st request = .error (.status .invalidArgument msg)) ∧
    (st.data = [] → st.finishedWrite = false →
      ByteStream.chunkReaderRead st [] =
        .failure (.status .invalidArgument "Client closed stream without finishing write")) ∧
    (st.finishedWrite = true →
      ByteStream.setRequest st request =
        .error (.status .invalidArgument "Client closed stream twice")) := by
  have hoff : st.writeOffset = ByteStream.sumDataLengths requests := by
    have hpr := processRequests_writeOffset requests ByteStream.initialChunkReaderState st h
    simpa [ByteStream.initialChunkReaderState] using hpr
  refine ⟨?_, ?_, ?_⟩
  · intro hne
    by_cases hf : st.finishedWrite = true
    · exact ⟨"Client closed stream twice", by simp [ByteStream.setRequest, hf]⟩
    · have hcond : request.writeOffset ≠ st.writeOffset := by
        rw [hoff]
        exact hne
      exact ⟨"Attempted to write at offset " ++ toString request.writeOffset ++
          ", while " ++ toString st.writeOffset ++ " was expected",
        by simp [ByteStream.setRequest, hf, hcond]⟩
  · intro hdata hfin
    simp [ByteStream.chunkReaderRead, hdata, hfin]
  · intro hf
    simp [ByteStream.setRequest, hf]

/-- Concrete runs of `byteStreamWrite_misuse_invalidArgument`: an
out-of-order offset, a stream ending without `finish_write`, and a
request after `finish_write` each yield `InvalidArgument`. -/
theorem byteStreamWrite_misuse_witness :
    (∃ msg, ByteStream.setRequest ⟨2, [1, 2], false⟩ ⟨5, [], true⟩ =
        .error (.status .invalidArgument msg)) ∧
    ByteStream.chunkReaderRead ⟨0, [], false⟩ [] =
      .failure (.status .invalidArgument "Client closed stream without finishing write") ∧
    ByteStream.setRequest ⟨1, [9], true⟩ ⟨1, [], true⟩ =
      .error (.status .invalidArgument "Client closed stream twice") :=
  ⟨(byteStreamWrite_misuse_invalidArgument [⟨0, [1, 2], false⟩] ⟨2, [1, 2], false⟩
      ⟨5, [], true⟩ rfl).1 (by decide),
   (byteStreamWrite_misuse_invalidArgument [⟨0, [], false⟩] ⟨0, [], false⟩
      ⟨0, [], false⟩ rfl).2.1 rfl rfl,
   (byteStreamWrite_misuse_invalidArgument [⟨0, [9], true⟩] ⟨1, [9], true⟩
      ⟨1, [], true⟩ rfl).2.2 rfl⟩

/-- C4: when `circularBlobAccess.Get` finds the digest in the offset
store at `(offset, length)`, the returned buffer is reader-backed and
reparable, and its repair callback invokes `stateStore.Invalidate` with
exactly that offset and length; conversely every reader-backed buffer it
returns carries the looked-up region as its invalidation arguments. -/
theorem circularGet_repair_invalidates_read_region
    (cursors : Circular.Cursors)
    (offsetStoreGet : Digest → Circular.Cursors → Except GoError (Nat × Int × Bool))
    (digest : Digest) (offset : Nat) (length : Int)
    (h : offsetStoreGet digest cursors = .ok (offset, length, true)) :
    Circular.circularGet cursors offsetStoreGet digest =
      .fromReader offset length (offset, length) ∧
    (∀ off len args, Circular.circularGet cursors offsetStoreGet digest =
        .fromReader off len args → args = (off, len)) := by
  constructor
  · simp [Circular.circularGet, h]
  · intro off len args hG
    simp [Circular.circularGet, h] at hG
    obtain ⟨h1, h2, h3⟩ := hG
    subst h1
    subst h2
    exact h3.symm

/-- Concrete run of `circularGet_repair_invalidates_read_region`: a hit
at offset 7, length 3 yields a buffer whose repair invalidates `(7, 3)`. -/
theorem circularGet_repair_witness :
    Circular.circularGet ⟨0, 10⟩ (fun _ _ => .ok (7, 3, true)) ⟨"", "ab", 3⟩ =
      .fromReader 7 3 (7, 3) :=
  (circularGet_repair_invalidates_read_region ⟨0, 10⟩ (fun _ _ => .ok (7, 3, true))
      ⟨"", "ab", 3⟩ 7 3 rfl).1

/-- C5: when the offset-store lookup reports the digest absent without
error, `circularBlobAccess.Get` returns the `NotFound` error buffer. -/
theorem circularGet_absent_notFound
    (cursors : Circular.Cursors)
    (offsetStoreGet : Digest → Circular.Cursors → Except GoError (Nat × Int × Bool))
    (digest : Digest) (offset : Nat) (length : Int)
    (h : offsetStoreGet digest cursors = .ok (offset, length, false)) :
    Circular.circularGet cursors offsetStoreGet digest =
      .fromError (.status .notFound "Blob not found") := by
  simp [Circular.circularGet, h]

/-- Concrete run of `circularGet_absent_notFound`: a backend whose offset
store has never stored anything returns `NotFound`. -/
theorem circularGet_absent_notFound_witness :
    Circular.circularGet ⟨0, 0⟩ (fun _ _ => .ok (0, 0, false)) ⟨"", "cafe", 1⟩ =
      .fromError (.status .notFound "Blob not found") :=
  circularGet_absent_notFound ⟨0, 0⟩ (fun _ _ => .ok (0, 0, false)) ⟨"", "cafe", 1⟩ 0 0 rfl

/-- C8: if `GetFile` fails while streaming the blob into the freshly
created file, the file is removed before the error is returned, so the
directory contents equal what they were before the call. -/
theorem getFile_failure_leaves_no_partial_file
    (dir : CAS.DirState) (name : String) (e : GoError)
    (hfresh : name ∉ dir.files) :
    (CAS.getFile dir name (some e)).result = some e ∧
    (CAS.getFile dir name (some e)).dir = dir := by
  have hfilter : List.filter (fun f => !decide (f = name)) dir.files = dir.files := by
    apply List.filter_eq_self.mpr
    intro f hf
    rw [Bool.not_eq_true', decide_eq_false_iff_not]
    intro hEq
    exact hfresh (hEq ▸ hf)
  simp [CAS.getFile, CAS.openAppendCreateExcl, hfresh, CAS.removeFile, hfilter]

/-- Concrete run of `getFile_failure_leaves_no_partial_file`: streaming
into the fresh file `out` fails and the directory still holds exactly
its previous file. -/
theorem getFile_failure_witness :
    (CAS.getFile ⟨["a"]⟩ "out" (some (.plain "read failed"))).result
        = some (.plain "read failed") ∧
    (CAS.getFile ⟨["a"]⟩ "out" (some (.plain "read failed"))).dir = ⟨["a"]⟩ :=
  getFile_failure_leaves_no_partial_file ⟨["a"]⟩ "out" (.plain "read failed") (by decide)

/-- Taking `min n l.length` elements of `l` is the same as taking `n`. -/
theorem take_min_length (l : List Nat) (n : Nat) :
    l.take (min n l.length) = l.take n := by
  rcases Nat.le_total n l.length with h | h
  · rw [Nat.min_eq_left h]
  · rw [Nat.min_eq_right h, List.take_of_length_le h, List.take_length]

/-- Taking, from the grown file, as many bytes as the first pass hashed
recovers exactly the hashed bytes. -/
theorem sectionUpload_eq_hashed (l g : List Nat) (n : Nat) :
    (l ++ g).take ((l.take n).length) = l.take n := by
  have hle : (l.take n).length ≤ l.length := by
    rw [List.length_take]
    exact Nat.min_le_right _ _
  calc (l ++ g).take ((l.take n).length) = l.take ((l.take n).length) :=
        List.take_eq_left_iff.mpr (Or.inr hle)
    _ = l.take (min n l.length) := by rw [List.length_take]
    _ = l.take n := take_min_length l n

/-- C9: `PutFile` uploads exactly the prefix of the file over which the
digest was computed: even when the file grows between the digest pass and
the upload pass, the uploaded bytes are the digested bytes, and the
returned digest's size equals their count (with its hash computed over
them). -/
theorem putFile_uploads_digested_bytes
    (H : List Nat → String) (inst : String)
    (file1 growth : List Nat)
    (blobPut : Digest → List Nat → Option GoError) :
    (CAS.putFile H inst none none file1 (file1 ++ growth) blobPut).uploaded =
      some (CAS.sectionReaderBytes file1 0 CAS.maxInt64) ∧
    ∀ d, (CAS.putFile H inst none none file1 (file1 ++ growth) blobPut).result = .ok d →
      d.sizeBytes = ((CAS.sectionReaderBytes file1 0 CAS.maxInt64).length : Int) ∧
      d.hash = H (CAS.sectionReaderBytes file1 0 CAS.maxInt64) := by
  have hup : CAS.sectionReaderBytes (file1 ++ growth) 0
      ((CAS.sectionReaderBytes file1 0 CAS.maxInt64).length) =
      CAS.sectionReaderBytes file1 0 CAS.maxInt64 := by
    simp only [CAS.sectionReaderBytes, List.drop_zero]
    exact sectionUpload_eq_hashed file1 growth CAS.maxInt64
  cases hbp : blobPut
      { instanceName := inst, hash := H (CAS.sectionReaderBytes file1 0 CAS.maxInt64),
        sizeBytes := ((CAS.sectionReaderBytes file1 0 CAS.maxInt64).length : Int) }
      (CAS.sectionReaderBytes (file1 ++ growth) 0
        ((CAS.sectionReaderBytes file1 0 CAS.maxInt64).length)) with
  | none =>
    rw [hup] at hbp
    constructor
    · simp [CAS.putFile, hbp, hup]
    · intro d hd
      simp [CAS.putFile, hup, hbp] at hd
      subst hd
      exact ⟨rfl, rfl⟩
  | some e =>
    rw [hup] at hbp
    constructor
    · simp [CAS.putFile, hbp, hup]
    · intro d hd
      simp [CAS.putFile, hup, hbp] at hd

/-- Concrete run of `putFile_uploads_digested_bytes`: the file grows
from `[1, 2]` to `[1, 2, 3]` between the passes; exactly `[1, 2]` is
uploaded and the digest's size is 2. -/
theorem putFile_uploads_digested_bytes_witness :
    (CAS.putFile (fun _ => "h") "inst" none none [1, 2] ([1, 2] ++ [3])
        (fun _ _ => none)).uploaded = some (CAS.sectionReaderBytes [1, 2] 0 CAS.maxInt64) :=
  (putFile_uploads_digested_bytes (fun _ => "h") "inst" [1, 2] [3] (fun _ _ => none)).1

/-- C10: `remoteBlobAccess.Put` errs only when size retrieval fails (the
buffer is then discarded), request building fails, or transport fails;
the response's status code is never inspected, so any server response —
including 4xx and 5xx — is reported to the caller as a successful `Put`. -/
theorem remotePut_ignores_response_status
    (ba : Remote.RemoteBlobAccess) (digest : Digest)
    (getSizeBytes : Except GoError Int)
    (newRequest : String → Option GoError)
    (doRequest : Remote.PutRequest → Remote.HTTPResult) :
    (∀ e, (Remote.remotePut ba getSizeBytes newRequest doRequest digest).result = some e ↔
      (getSizeBytes = .error e ∨
        (∃ sz, getSizeBytes = .ok sz ∧ newRequest (Remote.blobURL ba digest) = some e) ∨
        (∃ sz, getSizeBytes = .ok sz ∧ newRequest (Remote.blobURL ba digest) = none ∧
          doRequest ⟨"PUT", Remote.blobURL ba digest, sz⟩ = .transportError e))) ∧
    (∀ sz code body, getSizeBytes = .ok sz →
      newRequest (Remote.blobURL ba digest) = none →
      doRequest ⟨"PUT", Remote.blobURL ba digest, sz⟩ = .response code body →
      (Remote.remotePut ba getSizeBytes newRequest doRequest digest).result = none) ∧
    ((Remote.remotePut ba getSizeBytes newRequest doRequest digest).discarded = true ↔
      ∃ e, getSizeBytes = .error e) := by
  cases getSizeBytes with
  | error e0 => simp [Remote.remotePut]
  | ok sz0 =>
    cases hnr : newRequest (Remote.blobURL ba digest) with
    | some e0 => simp [Remote.remotePut, hnr]
    | none =>
      cases hdo : doRequest ⟨"PUT", Remote.blobURL ba digest, sz0⟩ with
      | transportError e0 =>
        refine ⟨by simp [Remote.remotePut, hnr, hdo], ?_,
          by simp [Remote.remotePut, hnr, hdo]⟩
        intro sz code body hsz hnr2 hdo2
        injection hsz with hsz
        subst hsz
        rw [hdo] at hdo2
        cases hdo2
      | response code body => simp [Remote.remotePut, hnr, hdo]

/-- Concrete run of `remotePut_ignores_response_status`: a server
answering 500 to the PUT is reported as success. -/
theorem remotePut_ignores_response_status_witness :
    (Remote.remotePut ⟨"http://cache", "cas"⟩ (.ok 3) (fun _ => none)
        (fun _ => .response 500 []) ⟨"", "abcd", 3⟩).result = none :=
  (remotePut_ignores_response_status ⟨"http://cache", "cas"⟩ ⟨"", "abcd", 3⟩ (.ok 3)
      (fun _ => none) (fun _ => .response 500 [])).2.1 3 500 [] rfl rfl rfl

/-- Success characterization of `remoteFindMissing`: the call succeeds
exactly when every digest's HEAD returns 200 or 404, and then the
missing set is the sublist answered 404. -/
theorem remoteFindMissing_ok_iff
    (ba : Remote.RemoteBlobAccess) (doHead : String → Remote.HTTPResult)
    (digests : List Digest) :
    ∀ missing : List Digest,
      Remote.remoteFindMissing ba doHead digests = Except.ok missing ↔
        ((∀ d ∈ digests,
            Remote.isOkOrNotFoundResponse (doHead (Remote.blobURL ba d)) = true) ∧
          missing = digests.filter
            (fun d => Remote.isNotFoundResponse (doHead (Remote.blobURL ba d)))) := by
  induction digests with
  | nil =>
    intro missing
    simp [Remote.remoteFindMissing]
  | cons d rest ih =>
    intro missing
    cases hd : doHead (Remote.blobURL ba d) with
    | transportError e =>
      simp [Remote.remoteFindMissing, hd, Remote.isOkOrNotFoundResponse,
        List.forall_mem_cons]
    | response code body =>
      by_cases h404 : code = 404
      · subst h404
        cases hr : Remote.remoteFindMissing ba doHead rest with
        | error e =>
          have heval : Remote.remoteFindMissing ba doHead (d :: rest) = Except.error e := by
            simp [Remote.remoteFindMissing, hd, hr]
          rw [heval]
          constructor
          · intro h
            simp at h
          · rintro ⟨hall, -⟩
            exfalso
            have hrest : ∀ x ∈ rest,
                Remote.isOkOrNotFoundResponse (doHead (Remote.blobURL ba x)) = true :=
              fun x hx => hall x (List.mem_cons_of_mem d hx)
            have hok := (ih (rest.filter
              (fun x => Remote.isNotFoundResponse (doHead (Remote.blobURL ba x))))).mpr
              ⟨hrest, rfl⟩
            rw [hok] at hr
            simp at hr
        | ok m =>
          obtain ⟨hall, hm⟩ := (ih m).mp hr
          subst hm
          have heval : Remote.remoteFindMissing ba doHead (d :: rest) =
              Except.ok (d :: rest.filter
                (fun x => Remote.isNotFoundResponse (doHead (Remote.blobURL ba x)))) := by
            simp [Remote.remoteFindMissing, hd, hr]
          rw [heval]
          simp only [List.filter_cons, hd, Remote.isNotFoundResponse,
            Remote.isOkOrNotFoundResponse, List.forall_mem_cons, Except.ok.injEq]
          constructor
          · intro h
            exact ⟨⟨by simp, fun a ha => hall a ha⟩, by simpa using h.symm⟩
          · rintro ⟨-, h⟩
            simpa using h.symm
      · by_cases h200 : code = 200
        · subst h200
          cases hr : Remote.remoteFindMissing ba doHead rest with
          | error e =>
            have heval : Remote.remoteFindMissing ba doHead (d :: rest) = Except.error e := by
              simp [Remote.remoteFindMissing, hd, hr]
            rw [heval]
            constructor
            · intro h
              simp at h
            · rintro ⟨hall, -⟩
              exfalso
              have hrest : ∀ x ∈ rest,
                  Remote.isOkOrNotFoundResponse (doHead (Remote.blobURL ba x)) = true :=
                fun x hx => hall x (List.mem_cons_of_mem d hx)
              have hok := (ih (rest.filter
                (fun x => Remote.isNotFoundResponse (doHead (Remote.blobURL ba x))))).mpr
                ⟨hrest, rfl⟩
              rw [hok] at hr
              simp at hr
          | ok m =>
            obtain ⟨hall, hm⟩ := (ih m).mp hr
            subst hm
            have heval : Remote.remoteFindMissing ba doHead (d :: rest) =
                Except.ok (rest.filter
                  (fun x => Remote.isNotFoundResponse (doHead (Remote.blobURL ba x)))) := by
              simp [Remote.remoteFindMissing, hd, hr]
            rw [heval]
            simp only [List.filter_cons, hd, Remote.isNotFoundResponse,
              Remote.isOkOrNotFoundResponse, List.forall_mem_cons, Except.ok.injEq]
            constructor
            · intro h
              exact ⟨⟨by simp, fun a ha => hall a ha⟩, by simpa using h.symm⟩
            · rintro ⟨-, h⟩
              simpa using h.symm
        · have heval : Remote.remoteFindMissing ba doHead (d :: rest) =
              Except.error (Remote.convertHTTPUnexpectedStatus code) := by
            simp [Remote.remoteFindMissing, hd, h404, h200]
          rw [heval]
          simp [Remote.isOkOrNotFoundResponse, List.forall_mem_cons, hd, h404, h200]

/-- C7: the HTTP remote backend addresses every blob at
`<address>/<prefix>/<hex hash>`; `Get` maps a 404 response to a
`NotFound` error buffer and a 200 response to a data buffer over the
body, any other status being an error; `FindMissing` reports a digest
missing iff its HEAD returns 404, 200 meaning present and any other
status failing the call; and `Put` sends a PUT request whose content
length equals the buffer's size in bytes. -/
theorem remoteBlobAccess_http_protocol (ba : Remote.RemoteBlobAccess) :
    (∀ digest : Digest, Remote.blobURL ba digest =
      ba.address ++ "/" ++ ba.pathBase ++ "/" ++ digest.hash) ∧
    (∀ (digest : Digest) (doGet : String → Remote.HTTPResult) (code : Nat) (body : List Nat),
      doGet (Remote.blobURL ba digest) = .response code body →
        Remote.remoteGet ba doGet digest =
          (if code = 404 then .fromError (.status .notFound (Remote.blobURL ba digest))
           else if code = 200 then .fromReader body
           else .fromError (Remote.convertHTTPUnexpectedStatus code))) ∧
    (∀ (doHead : String → Remote.HTTPResult) (digests missing : List Digest),
      Remote.remoteFindMissing ba doHead digests = Except.ok missing ↔
        ((∀ d ∈ digests,
            Remote.isOkOrNotFoundResponse (doHead (Remote.blobURL ba d)) = true) ∧
          missing = digests.filter
            (fun d => Remote.isNotFoundResponse (doHead (Remote.blobURL ba d))))) ∧
    (∀ (digest : Digest) (getSizeBytes : Except GoError Int)
        (newRequest : String → Option GoError)
        (doRequest : Remote.PutRequest → Remote.HTTPResult)
        (sz : Int) (req : Remote.PutRequest),
      getSizeBytes = Except.ok sz →
      (Remote.remotePut ba getSizeBytes newRequest doRequest digest).requestSent = some req →
        req.method = "PUT" ∧ req.url = Remote.blobURL ba digest ∧ req.contentLength = sz) := by
  refine ⟨fun _ => rfl, ?_, ?_, ?_⟩
  · intro digest doGet code body h
    simp [Remote.remoteGet, h]
  · intro doHead digests missing
    exact remoteFindMissing_ok_iff ba doHead digests missing
  · intro digest getSizeBytes newRequest doRequest sz req hgs hsent
    subst hgs
    cases hnr : newRequest (Remote.blobURL ba digest) with
    | some e => simp [Remote.remotePut, hnr] at hsent
    | none =>
      cases hdo : doRequest ⟨"PUT", Remote.blobURL ba digest, sz⟩ with
      | transportError e =>
        simp [Remote.remotePut, hnr, hdo] at hsent
        subst hsent
        exact ⟨rfl, rfl, rfl⟩
      | response code body =>
        simp [Remote.remotePut, hnr, hdo] at hsent
        subst hsent
        exact ⟨rfl, rfl, rfl⟩

/-- Concrete run of `remoteBlobAccess_http_protocol`: the digest whose
HEAD answers 200 is present, the one answered 404 is missing. -/
theorem remoteBlobAccess_http_protocol_witness :
    Remote.remoteFindMissing ⟨"http://c", "cas"⟩
      (fun url => if url = "http://c/cas/aa" then .response 200 [] else .response 404 [])
      [⟨"", "aa", 1⟩, ⟨"", "bb", 2⟩] = Except.ok [⟨"", "bb", 2⟩] :=
  ((remoteBlobAccess_http_protocol ⟨"http://c", "cas"⟩).2.2.1
      (fun url => if url = "http://c/cas/aa" then .response 200 [] else .response 404 [])
      [⟨"", "aa", 1⟩, ⟨"", "bb", 2⟩] [⟨"", "bb", 2⟩]).mpr ⟨by decide, by decide⟩

/-- C6: `parseResourceNameWrite` accepts exactly the strings that split
on `/` into 5 or 6 non-empty fields with `uploads` as the 5th-from-last
field, `blobs` as the 3rd-from-last field and a decimal integer as the
last field, producing the digest described by the claim; every other
string yields `InvalidArgument`. -/
theorem parseResourceNameWrite_exact (s : String) :
    ByteStream.parseResourceNameWrite s =
      match ByteStream.writeResourceNameSpec s with
      | some d => Except.ok d
      | none => Except.error (.status .invalidArgument "Invalid resource naming scheme") := by
  simp only [ByteStream.parseResourceNameWrite, ByteStream.writeResourceNameSpec]
  by_cases h : ((ByteStream.fieldsFunc s).length = 5 ∨ (ByteStream.fieldsFunc s).length = 6) ∧
      (ByteStream.fieldsFunc s).getD ((ByteStream.fieldsFunc s).length - 5) "" = "uploads" ∧
      (ByteStream.fieldsFunc s).getD ((ByteStream.fieldsFunc s).length - 3) "" = "blobs"
  · have hneg : ¬(((ByteStream.fieldsFunc s).length ≠ 5 ∧ (ByteStream.fieldsFunc s).length ≠ 6) ∨
        (ByteStream.fieldsFunc s).getD ((ByteStream.fieldsFunc s).length - 5) "" ≠ "uploads" ∨
        (ByteStream.fieldsFunc s).getD ((ByteStream.fieldsFunc s).length - 3) "" ≠ "blobs") := by
      tauto
    rw [if_neg hneg, if_pos h]
    cases hp : ByteStream.parseInt64
        ((ByteStream.fieldsFunc s).getD ((ByteStream.fieldsFunc s).length - 1) "") with
    | none => rfl
    | some size => rfl
  · have hpos : ((ByteStream.fieldsFunc s).length ≠ 5 ∧ (ByteStream.fieldsFunc s).length ≠ 6) ∨
        (ByteStream.fieldsFunc s).getD ((ByteStream.fieldsFunc s).length - 5) "" ≠ "uploads" ∨
        (ByteStream.fieldsFunc s).getD ((ByteStream.fieldsFunc s).length - 3) "" ≠ "blobs" := by
      tauto
    rw [if_pos hpos, if_neg h]

end BBStorage
